import Mathlib

/-!
Shallow embedding of the analysis core of `btc_bot.py`: ATR calculation,
trend determination, key-level detection, round-level snapping, pattern
detection and reserve-move estimation, all over ordered candle series.
Prices are modelled as rationals, timestamps as naturals.
-/

namespace BtcBot

/-- One OHLCV bar, as produced by `fetch_ohlcv`. -/
structure Candle where
  timestamp : ℕ
  open_ : ℚ
  high : ℚ
  low : ℚ
  close : ℚ
  volume : ℚ
deriving Repr, DecidableEq, Inhabited

/-- The `close` column of a data frame: `df['close']`. -/
def closeCol (df : List Candle) : List ℚ := df.map (fun b => b.close)

/-- The `high` column of a data frame: `df['high']`. -/
def highCol (df : List Candle) : List ℚ := df.map (fun b => b.high)

/-- The `low` column of a data frame: `df['low']`. -/
def lowCol (df : List Candle) : List ℚ := df.map (fun b => b.low)

/-- pandas `Series.shift()`: first entry becomes NaN (modelled `none`),
the remaining entries are the previous values. -/
def shift (xs : List ℚ) : List (Option ℚ) :=
  (none :: xs.map some).take xs.length

/-- `|a - b|` where `b` may be NaN (`none`); NaN propagates. -/
def subAbs (a : ℚ) (b? : Option ℚ) : Option ℚ := b?.map (fun b => |a - b|)

/-- Column `df['high_low'] = df['high'] - df['low']`. -/
def high_low (df : List Candle) : List ℚ :=
  List.zipWith (fun h l => h - l) (highCol df) (lowCol df)

/-- Column `df['high_close'] = (df['high'] - df['close'].shift()).abs()`. -/
def high_close (df : List Candle) : List (Option ℚ) :=
  List.zipWith subAbs (highCol df) (shift (closeCol df))

/-- Column `df['low_close'] = (df['low'] - df['close'].shift()).abs()`. -/
def low_close (df : List Candle) : List (Option ℚ) :=
  List.zipWith subAbs (lowCol df) (shift (closeCol df))

/-- Row-wise `max` over the three columns with pandas NaN-skipping
semantics (`skipna=True`): the first column is always present, a NaN
entry in the others is ignored. -/
def nanMax3 (a : ℚ) (b? c? : Option ℚ) : ℚ :=
  max a (max (b?.getD a) (c?.getD a))

/-- Column `df['tr'] = df[['high_low','high_close','low_close']].max(axis=1)`. -/
def trCol (df : List Candle) : List ℚ :=
  List.zipWith (fun a bc => nanMax3 a bc.1 bc.2)
    (high_low df) (List.zipWith Prod.mk (high_close df) (low_close df))

/-- pandas `Series.rolling(window=w, min_periods=1).mean()`: at index `i`
the mean of the entries in the trailing window `[i+1-w, i]` (truncated at
the start of the series). -/
def rollingMean (xs : List ℚ) (w : ℕ) : List ℚ :=
  (List.range xs.length).map (fun i =>
    let win := (xs.take (i + 1)).drop (i + 1 - w)
    win.sum / (win.length : ℚ))

/-- Maximum of a list of rationals (junk value 0 on the empty list; the
code only applies it to non-empty rolling windows). -/
def listMax : List ℚ → ℚ
  | [] => 0
  | x :: xs => xs.foldl max x

/-- Minimum of a list of rationals (junk value 0 on the empty list). -/
def listMin : List ℚ → ℚ
  | [] => 0
  | x :: xs => xs.foldl min x

/-- pandas `Series.rolling(window=w, min_periods=1).max()`. -/
def rollingMax (xs : List ℚ) (w : ℕ) : List ℚ :=
  (List.range xs.length).map (fun i =>
    listMax ((xs.take (i + 1)).drop (i + 1 - w)))

/-- pandas `Series.rolling(window=w, min_periods=1).min()`. -/
def rollingMin (xs : List ℚ) (w : ℕ) : List ℚ :=
  (List.range xs.length).map (fun i =>
    listMin ((xs.take (i + 1)).drop (i + 1 - w)))

/-- One row of the data frame returned by `calculate_atr`: the source
OHLCV fields plus the derived columns added by the function. `high_close`
and `low_close` are NaN (`none`) on the first row. -/
structure AtrRow where
  timestamp : ℕ
  open_ : ℚ
  high : ℚ
  low : ℚ
  close : ℚ
  volume : ℚ
  high_low : ℚ
  high_close : Option ℚ
  low_close : Option ℚ
  tr : ℚ
  atr : ℚ
deriving Repr, DecidableEq, Inhabited

/-- `calculate_atr(df, period)`: works on a copy of `df`, adds the columns
`high_low`, `high_close`, `low_close`, `tr` (row max, NaN-skipping) and
`atr` (rolling mean of `tr`, window `period`, `min_periods=1`). An empty
frame is returned unchanged. -/
def calculate_atr (df : List Candle) (period : ℕ) : List AtrRow :=
  let hls := high_low df
  let hcs := high_close df
  let lcs := low_close df
  let trs := trCol df
  let atrs := rollingMean trs period
  (List.range df.length).map (fun i =>
    let b := df.getD i default
    { timestamp := b.timestamp, open_ := b.open_, high := b.high, low := b.low,
      close := b.close, volume := b.volume,
      high_low := hls.getD i 0, high_close := hcs.getD i none,
      low_close := lcs.getD i none,
      tr := trs.getD i 0, atr := atrs.getD i 0 })

/-- `determine_trend(df_1h, df_1d)`: local trend compares the last hourly
close with the last daily close; the global trend (when at least 6 daily
bars exist) compares the last daily close with `df_1d['close'].iloc[-5]`,
the element at position `length - 5`. Empty input on either side yields
`(None, None)`. -/
def determine_trend (df_1h df_1d : List Candle) : Option String × Option String :=
  if df_1h.isEmpty || df_1d.isEmpty then (none, none)
  else
    let current_price := (closeCol df_1h).getD (df_1h.length - 1) 0
    let last_daily_close := (closeCol df_1d).getD (df_1d.length - 1) 0
    let local_trend := if last_daily_close < current_price then "long" else "short"
    let global_trend : Option String :=
      if 6 ≤ df_1d.length then
        some (if (closeCol df_1d).getD (df_1d.length - 5) 0 < last_daily_close
              then "long" else "short")
      else none
    (some local_trend, global_trend)

/-- `find_key_levels(df)`: for each index produced by `range(1, len(df)-1)`
emit a resistance level when the bar's high equals the trailing-20 rolling
max of highs at that index, and a support level when the bar's low equals
the trailing-20 rolling min of lows. -/
def find_key_levels (df : List Candle) : List (String × ℚ × ℕ) :=
  let highs := rollingMax (highCol df) 20
  let lows := rollingMin (lowCol df) 20
  (List.range' 1 (df.length - 1 - 1)).flatMap (fun i =>
    let b := df.getD i default
    (if b.high = highs.getD i 0 then [("resistance", b.high, b.timestamp)] else []) ++
    (if b.low = lows.getD i 0 then [("support", b.low, b.timestamp)] else []))

/-- Python's built-in `round` on rationals: nearest integer, ties to even. -/
def pyRound (q : ℚ) : ℤ :=
  if q - (⌊q⌋ : ℚ) < 1/2 then ⌊q⌋
  else if 1/2 < q - (⌊q⌋ : ℚ) then ⌊q⌋ + 1
  else if ⌊q⌋ % 2 = 0 then ⌊q⌋ else ⌊q⌋ + 1

/-- The loop of `find_round_levels`: try each granularity in order; the
rounded value is `round(price / level) * level` and it is returned as soon
as its distance to the price is below 10% of the granularity. -/
def find_round_levels_go (p : ℚ) : List ℚ → Option ℚ
  | [] => none
  | level :: rest =>
      if |p - (pyRound (p / level) : ℚ) * level| < level * (1/10)
      then some ((pyRound (p / level) : ℚ) * level)
      else find_round_levels_go p rest

/-- `find_round_levels(price, round_levels)`: `None`/NaN price yields
`None` (modelled by an `Option` price); otherwise the first granularity
whose nearest multiple is within 10% of the granularity wins. -/
def find_round_levels (price : Option ℚ) (round_levels : List ℚ) : Option ℚ :=
  match price with
  | none => none
  | some p => find_round_levels_go p round_levels

/-- A row as read by `check_patterns`: the fields it accesses. The `atr`
field models `last_bar.get('atr', 0) if 'atr' in last_bar.index else 0`:
`none` means the `atr` column is absent, `some none` means the entry is
NaN, `some (some v)` an actual value. -/
structure PBar where
  timestamp : ℕ
  high : ℚ
  low : ℚ
  close : ℚ
  atr : Option (Option ℚ) := none
deriving Repr, DecidableEq, Inhabited

/-- The `atr_val` lookup in `check_patterns`: a missing column defaults to
the number 0, a NaN entry stays NaN (`none`). -/
def atrVal (b : PBar) : Option ℚ :=
  match b.atr with
  | none => some 0
  | some v => v

/-- `check_patterns(df, levels)`: needs at least two bars; for each key
level checks false breakout, breakout and bounce on the last two bars,
appending each matching signal. `np.isnan(atr_val)` makes the bounce
condition false when the ATR entry is NaN. -/
def check_patterns (df : List PBar) (levels : List (String × ℚ × ℕ)) :
    List (String × ℚ × ℕ) :=
  if df.length < 2 then []
  else
    let last_bar := df.getD (df.length - 1) default
    let prev_bar := df.getD (df.length - 2) default
    levels.flatMap (fun lv =>
      let level_type := lv.1
      let level_price := lv.2.1
      (if (level_price < prev_bar.high ∧ last_bar.close < level_price ∧
             level_type = "resistance") ∨
          (prev_bar.low < level_price ∧ level_price < last_bar.close ∧
             level_type = "support")
       then [("false_breakout", level_price, last_bar.timestamp)] else []) ++
      (if level_price < last_bar.close ∧ prev_bar.close < level_price ∧
          level_type = "resistance"
       then [("breakout", level_price, last_bar.timestamp)] else []) ++
      (match atrVal last_bar with
       | none => []
       | some a =>
         if level_type = "support" ∧ |last_bar.low - level_price| < a * (1/10) ∧
            level_price < last_bar.close
         then [("bounce", level_price, last_bar.timestamp)] else []))

/-- `get_reserve_move(df_1h, df_1d, atr)`: `none` models a `None` or NaN
ATR argument. -/
def get_reserve_move (df_1h df_1d : List Candle) (atr : Option ℚ) : String :=
  if df_1h.isEmpty || df_1d.isEmpty || atr.isNone then
    "Нет данных для оценки запаса хода"
  else
    let price_move :=
      |(closeCol df_1h).getD (df_1h.length - 1) 0 -
        (closeCol df_1d).getD (df_1d.length - 1) 0|
    if (atr.getD 0) * (3/4) < price_move then
      "Запас хода исчерпан (>75% ATR), предпочтение контртрендовым сделкам"
    else "Запас хода нормальный"

/-! Spec-side definitions, written from the specification's wording, to be
compared with the embedded code. -/

/-- The true range of bar `i` as the specification words it: for `i > 0`
the max of `high[i]-low[i]`, `|high[i]-close[i-1]|`, `|low[i]-close[i-1]|`;
for `i = 0` just `high[0]-low[0]`. -/
def trSpec (df : List Candle) (i : ℕ) : ℚ :=
  let b := df.getD i default
  if i = 0 then b.high - b.low
  else
    let p := df.getD (i - 1) default
    max (b.high - b.low) (max |b.high - p.close| |b.low - p.close|)

/-- Some integer multiple of `g` lies at distance strictly below `g/10`
from `p` — the specification's tolerance condition for a round level. -/
def hasNearMultiple (p g : ℚ) : Prop := ∃ k : ℤ, |p - g * (k : ℚ)| < g * (1/10)

/-- The global-trend rule as the specification words it: with at least 6
daily bars, `long` when the last daily close strictly exceeds the close 5
bars prior (position `length - 6`), else `short`; otherwise `none`. -/
def globalTrendSpec (df_1d : List Candle) : Option String :=
  if 6 ≤ df_1d.length then
    some (if (closeCol df_1d).getD (df_1d.length - 6) 0 <
            (closeCol df_1d).getD (df_1d.length - 1) 0
          then "long" else "short")
  else none

/-! Helper lemmas. -/

lemma getElem?_eq_getD {α : Type} (l : List α) (i : ℕ) (d : α) (h : i < l.length) :
    l[i]? = some (l.getD i d) := by
  rw [List.getD_eq_getElem?_getD, List.getElem?_eq_getElem h]
  rfl

lemma length_shift (xs : List ℚ) : (shift xs).length = xs.length := by
  simp [shift]

lemma length_highCol (df : List Candle) : (highCol df).length = df.length :=
  List.length_map _ _

lemma length_lowCol (df : List Candle) : (lowCol df).length = df.length :=
  List.length_map _ _

lemma length_closeCol (df : List Candle) : (closeCol df).length = df.length :=
  List.length_map _ _

lemma length_high_low (df : List Candle) : (high_low df).length = df.length := by
  simp [high_low, length_highCol, length_lowCol]

lemma length_high_close (df : List Candle) : (high_close df).length = df.length := by
  simp [high_close, length_highCol, length_shift, length_closeCol]

lemma length_low_close (df : List Candle) : (low_close df).length = df.length := by
  simp [low_close, length_lowCol, length_shift, length_closeCol]

lemma length_trCol (df : List Candle) : (trCol df).length = df.length := by
  simp [trCol, length_high_low, length_high_close, length_low_close]

lemma length_rollingMean (xs : List ℚ) (w : ℕ) : (rollingMean xs w).length = xs.length := by
  simp [rollingMean]

lemma highCol_getElem? (df : List Candle) (i : ℕ) (hi : i < df.length) :
    (highCol df)[i]? = some ((df.getD i default).high) := by
  rw [highCol, List.getElem?_map, getElem?_eq_getD df i default hi, Option.map_some']

lemma lowCol_getElem? (df : List Candle) (i : ℕ) (hi : i < df.length) :
    (lowCol df)[i]? = some ((df.getD i default).low) := by
  rw [lowCol, List.getElem?_map, getElem?_eq_getD df i default hi, Option.map_some']

lemma closeCol_getElem? (df : List Candle) (i : ℕ) (hi : i < df.length) :
    (closeCol df)[i]? = some ((df.getD i default).close) := by
  rw [closeCol, List.getElem?_map, getElem?_eq_getD df i default hi, Option.map_some']

lemma shift_getElem?_zero (xs : List ℚ) (h : 0 < xs.length) :
    (shift xs)[0]? = some none := by
  rw [shift, List.getElem?_take, if_pos h, List.getElem?_cons_zero]

lemma shift_getElem?_succ (xs : List ℚ) (j : ℕ) (h : j + 1 < xs.length) :
    (shift xs)[j + 1]? = some (some (xs.getD j 0)) := by
  rw [shift, List.getElem?_take, if_pos h, List.getElem?_cons_succ, List.getElem?_map,
    getElem?_eq_getD xs j 0 (by omega), Option.map_some']

lemma high_low_getElem? (df : List Candle) (i : ℕ) (hi : i < df.length) :
    (high_low df)[i]? = some ((df.getD i default).high - (df.getD i default).low) := by
  rw [high_low, List.getElem?_zipWith', highCol_getElem? df i hi, lowCol_getElem? df i hi]
  rfl

lemma shift_closeCol_getElem? (df : List Candle) (i : ℕ) (hi : i < df.length) :
    (shift (closeCol df))[i]? =
      some (if i = 0 then none else some ((df.getD (i - 1) default).close)) := by
  cases i with
  | zero =>
      rw [shift_getElem?_zero _ (by rw [length_closeCol]; omega)]
      rfl
  | succ j =>
      rw [shift_getElem?_succ _ j (by rw [length_closeCol]; omega)]
      simp only [Nat.succ_ne_zero, if_false, Nat.add_sub_cancel]
      rw [closeCol, List.getD_eq_getElem?_getD, List.getElem?_map,
        getElem?_eq_getD df j default (by omega), Option.map_some']
      rfl

lemma high_close_getElem? (df : List Candle) (i : ℕ) (hi : i < df.length) :
    (high_close df)[i]? =
      some (if i = 0 then none
            else some |(df.getD i default).high - (df.getD (i - 1) default).close|) := by
  rw [high_close, List.getElem?_zipWith', highCol_getElem? df i hi,
    shift_closeCol_getElem? df i hi]
  cases i with
  | zero => rfl
  | succ j => rfl

lemma low_close_getElem? (df : List Candle) (i : ℕ) (hi : i < df.length) :
    (low_close df)[i]? =
      some (if i = 0 then none
            else some |(df.getD i default).low - (df.getD (i - 1) default).close|) := by
  rw [low_close, List.getElem?_zipWith', lowCol_getElem? df i hi,
    shift_closeCol_getElem? df i hi]
  cases i with
  | zero => rfl
  | succ j => rfl

lemma trCol_getElem? (df : List Candle) (i : ℕ) (hi : i < df.length) :
    (trCol df)[i]? = some (trSpec df i) := by
  rw [trCol, List.getElem?_zipWith', List.getElem?_zipWith', high_low_getElem? df i hi,
    high_close_getElem? df i hi, low_close_getElem? df i hi]
  cases i with
  | zero => simp [nanMax3, trSpec]
  | succ j => simp [nanMax3, trSpec]

lemma trCol_getD (df : List Candle) (i : ℕ) (hi : i < df.length) :
    (trCol df).getD i 0 = trSpec df i := by
  rw [List.getD_eq_getElem?_getD, trCol_getElem? df i hi]
  rfl

lemma rollingMean_getD (xs : List ℚ) (w i : ℕ) (hi : i < xs.length) :
    (rollingMean xs w).getD i 0 =
      ((xs.take (i + 1)).drop (i + 1 - w)).sum /
        ((((xs.take (i + 1)).drop (i + 1 - w)).length : ℕ) : ℚ) := by
  rw [List.getD_eq_getElem?_getD, rollingMean, List.getElem?_map, List.getElem?_range hi]
  rfl

lemma rollingMax_getD (xs : List ℚ) (w i : ℕ) (hi : i < xs.length) :
    (rollingMax xs w).getD i 0 = listMax ((xs.take (i + 1)).drop (i + 1 - w)) := by
  rw [List.getD_eq_getElem?_getD, rollingMax, List.getElem?_map, List.getElem?_range hi]
  rfl

lemma rollingMin_getD (xs : List ℚ) (w i : ℕ) (hi : i < xs.length) :
    (rollingMin xs w).getD i 0 = listMin ((xs.take (i + 1)).drop (i + 1 - w)) := by
  rw [List.getD_eq_getElem?_getD, rollingMin, List.getElem?_map, List.getElem?_range hi]
  rfl

lemma window_length (xs : List ℚ) (i w : ℕ) (hi : i < xs.length) :
    ((xs.take (i + 1)).drop (i + 1 - w)).length = min w (i + 1) := by
  rw [List.length_drop, List.length_take]
  omega

lemma list_sum_getD (l : List ℚ) : l.sum = ∑ j ∈ Finset.range l.length, l.getD j 0 := by
  induction l with
  | nil => simp
  | cons x xs ih =>
      rw [List.sum_cons, ih, List.length_cons, Finset.sum_range_succ']
      simp only [List.getD_cons_succ, List.getD_cons_zero]
      ring

lemma window_sum (xs : List ℚ) (a b : ℕ) (hb : b ≤ xs.length) :
    ((xs.take b).drop a).sum = ∑ j ∈ Finset.Ico a b, xs.getD j 0 := by
  rw [list_sum_getD]
  have hlen : ((xs.take b).drop a).length = b - a := by
    rw [List.length_drop, List.length_take]
    omega
  rw [hlen, Finset.sum_Ico_eq_sum_range (fun j => xs.getD j 0) a b]
  refine Finset.sum_congr rfl (fun j hj => ?_)
  have hjb : a + j < b := by
    have := Finset.mem_range.1 hj
    omega
  rw [List.getD_eq_getElem?_getD, List.getElem?_drop, List.getElem?_take, if_pos hjb,
    ← List.getD_eq_getElem?_getD]

lemma calculate_atr_getD (df : List Candle) (period i : ℕ) (hi : i < df.length) :
    (calculate_atr df period).getD i default =
      { timestamp := (df.getD i default).timestamp, open_ := (df.getD i default).open_,
        high := (df.getD i default).high, low := (df.getD i default).low,
        close := (df.getD i default).close, volume := (df.getD i default).volume,
        high_low := (high_low df).getD i 0, high_close := (high_close df).getD i none,
        low_close := (low_close df).getD i none,
        tr := (trCol df).getD i 0,
        atr := (rollingMean (trCol df) period).getD i 0 } := by
  rw [List.getD_eq_getElem?_getD, calculate_atr, List.getElem?_map, List.getElem?_range hi]
  rfl

lemma tr_getD_eq (df : List Candle) (period i : ℕ) (hi : i < df.length) :
    ((calculate_atr df period).getD i default).tr = trSpec df i := by
  rw [calculate_atr_getD df period i hi]
  exact trCol_getD df i hi

lemma atr_getD_eq (df : List Candle) (period i : ℕ) (hi : i < df.length) :
    ((calculate_atr df period).getD i default).atr =
      (∑ j ∈ Finset.Ico (i + 1 - period) (i + 1), trSpec df j) /
        ((min period (i + 1) : ℕ) : ℚ) := by
  have hi' : i < (trCol df).length := by rw [length_trCol]; exact hi
  rw [calculate_atr_getD df period i hi]
  rw [rollingMean_getD (trCol df) period i hi']
  rw [window_sum (trCol df) (i + 1 - period) (i + 1) (by omega)]
  rw [window_length (trCol df) i period hi']
  have hsum : ∑ j ∈ Finset.Ico (i + 1 - period) (i + 1), (trCol df).getD j 0 =
      ∑ j ∈ Finset.Ico (i + 1 - period) (i + 1), trSpec df j := by
    refine Finset.sum_congr rfl (fun j hj => ?_)
    have hji : j < df.length := by
      have := Finset.mem_Ico.1 hj
      omega
    exact trCol_getD df j hji
  rw [hsum]

lemma abs_sub_pyRound_le (q : ℚ) : |q - (pyRound q : ℚ)| ≤ 1/2 := by
  have h0 : (⌊q⌋ : ℚ) ≤ q := Int.floor_le q
  have h1 : q < ⌊q⌋ + 1 := Int.lt_floor_add_one q
  unfold pyRound
  split
  · rename_i hc
    rw [abs_of_nonneg (by linarith)]
    linarith
  · rename_i hc
    push_neg at hc
    split
    · rename_i hc2
      push_cast
      rw [abs_of_nonpos (by linarith)]
      linarith
    · rename_i hc2
      push_neg at hc2
      split
      · rw [abs_of_nonneg (by linarith)]
        linarith
      · push_cast
        rw [abs_of_nonpos (by linarith)]
        linarith

lemma abs_sub_pyRound_min (q : ℚ) (k : ℤ) : |q - (pyRound q : ℚ)| ≤ |q - (k : ℚ)| := by
  rcases eq_or_ne k (pyRound q) with hk | hk
  · rw [hk]
  · have h12 := abs_le.1 (abs_sub_pyRound_le q)
    rcases lt_or_gt_of_ne hk with hlt | hgt
    · have hk1 : k + 1 ≤ pyRound q := by omega
      have hk1' : (k : ℚ) + 1 ≤ (pyRound q : ℚ) := by exact_mod_cast hk1
      have := le_abs_self (q - (k : ℚ))
      linarith [h12.1, abs_sub_pyRound_le q]
    · have hk1 : pyRound q + 1 ≤ k := by omega
      have hk1' : (pyRound q : ℚ) + 1 ≤ (k : ℚ) := by exact_mod_cast hk1
      have := neg_le_abs (q - (k : ℚ))
      linarith [h12.2, abs_sub_pyRound_le q]

lemma abs_sub_mul_pyRound (p g : ℚ) (hg : 0 < g) (k : ℤ) :
    |p - (pyRound (p / g) : ℚ) * g| ≤ |p - g * (k : ℚ)| := by
  have key : ∀ x : ℚ, |p - x * g| = g * |p / g - x| := by
    intro x
    have hx : p - x * g = g * (p / g - x) := by
      field_simp
      ring
    rw [hx, abs_mul, abs_of_pos hg]
  rw [key, mul_comm g (k : ℚ), key]
  exact mul_le_mul_of_nonneg_left (abs_sub_pyRound_min (p / g) k) hg.le

lemma hasNearMultiple_iff (p g : ℚ) (hg : 0 < g) :
    hasNearMultiple p g ↔ |p - (pyRound (p / g) : ℚ) * g| < g * (1/10) := by
  constructor
  · rintro ⟨k, hk⟩
    exact lt_of_le_of_lt (abs_sub_mul_pyRound p g hg k) hk
  · intro h
    exact ⟨pyRound (p / g), by rw [mul_comm]; exact h⟩

lemma find_round_levels_go_some (p v : ℚ) (gs : List ℚ) (hpos : ∀ g ∈ gs, 0 < g)
    (h : find_round_levels_go p gs = some v) :
    ∃ pre g post, gs = pre ++ g :: post ∧
      (∀ g' ∈ pre, ¬ hasNearMultiple p g') ∧
      (∃ k : ℤ, v = g * (k : ℚ)) ∧ |p - v| < g * (1/10) ∧
      (∀ k : ℤ, |p - v| ≤ |p - g * (k : ℚ)|) := by
  induction gs with
  | nil => simp [find_round_levels_go] at h
  | cons level rest ih =>
      have hl : 0 < level := hpos level (by simp)
      rw [find_round_levels_go] at h
      by_cases hc : |p - (pyRound (p / level) : ℚ) * level| < level * (1/10)
      · rw [if_pos hc] at h
        have hv : (pyRound (p / level) : ℚ) * level = v := Option.some.inj h
        refine ⟨[], level, rest, by simp, by simp, ⟨pyRound (p / level), by rw [← hv]; ring⟩,
          by rw [← hv]; exact hc, ?_⟩
        intro k
        rw [← hv]
        exact abs_sub_mul_pyRound p level hl k
      · rw [if_neg hc] at h
        obtain ⟨pre, g, post, hsplit, hpre, hmul, hclose, hmin⟩ :=
          ih (fun g hg => hpos g (by simp [hg])) h
        refine ⟨level :: pre, g, post, by simp [hsplit], ?_, hmul, hclose, hmin⟩
        intro g' hg'
        rcases List.mem_cons.1 hg' with hg' | hg'
        · rw [hg', hasNearMultiple_iff p level hl]
          exact hc
        · exact hpre g' hg'

lemma find_round_levels_go_none (p : ℚ) (gs : List ℚ) (hpos : ∀ g ∈ gs, 0 < g)
    (h : find_round_levels_go p gs = none) :
    ∀ g ∈ gs, ¬ hasNearMultiple p g := by
  induction gs with
  | nil => simp
  | cons level rest ih =>
      have hl : 0 < level := hpos level (by simp)
      rw [find_round_levels_go] at h
      by_cases hc : |p - (pyRound (p / level) : ℚ) * level| < level * (1/10)
      · rw [if_pos hc] at h
        exact absurd h (by simp)
      · rw [if_neg hc] at h
        intro g hg
        rcases List.mem_cons.1 hg with hg' | hg'
        · rw [hg', hasNearMultiple_iff p level hl]
          exact hc
        · exact ih (fun g' hg'' => hpos g' (by simp [hg''])) h g hg'

lemma trSpec_nonneg (df : List Candle) (hlh : ∀ b ∈ df, b.low ≤ b.high) (i : ℕ)
    (hi : i < df.length) : 0 ≤ trSpec df i := by
  have hmem : df.getD i default ∈ df := by
    rw [List.getD_eq_getElem?_getD, List.getElem?_eq_getElem hi]
    exact List.getElem_mem hi
  have hb := hlh _ hmem
  simp only [trSpec]
  split
  · linarith
  · exact le_trans (by linarith) (le_max_left _ _)

/-! Claim theorems. -/

/-- C1: the specification says the global trend compares the last daily
close with the close 5 bars prior, and the code's own comment and its
6-bar guard agree, but the code reads `iloc[-5]`, the close only 4 bars
prior. On a 6-bar daily series with closes 10, 1, 1, 1, 1, 5 the code
reports a `long` global trend while the specified rule gives `short`. -/
theorem determine_trend_global_offset_bug :
    (determine_trend [⟨0, 0, 0, 0, 5, 0⟩]
        [⟨0, 0, 0, 0, 10, 0⟩, ⟨1, 0, 0, 0, 1, 0⟩, ⟨2, 0, 0, 0, 1, 0⟩,
         ⟨3, 0, 0, 0, 1, 0⟩, ⟨4, 0, 0, 0, 1, 0⟩, ⟨5, 0, 0, 0, 5, 0⟩]).2 = some "long" ∧
    globalTrendSpec
        [⟨0, 0, 0, 0, 10, 0⟩, ⟨1, 0, 0, 0, 1, 0⟩, ⟨2, 0, 0, 0, 1, 0⟩,
         ⟨3, 0, 0, 0, 1, 0⟩, ⟨4, 0, 0, 0, 1, 0⟩, ⟨5, 0, 0, 0, 5, 0⟩] = some "short" := by
  constructor
  · norm_num [determine_trend, closeCol]
  · norm_num [globalTrendSpec, closeCol]

/-- C2: for every candle series, positive period and index in range, the
`tr` value of `calculate_atr` is the true range (max of high-low and the
two absolute gaps to the previous close, just high-low at index 0) and the
`atr` value is the arithmetic mean of the true ranges over the trailing
`min(period, i+1)` indices. -/
theorem calculate_atr_true_range_rolling_mean (df : List Candle) (period : ℕ)
    (_hp : 0 < period) (i : ℕ) (hi : i < df.length) :
    ((calculate_atr df period).getD i default).tr = trSpec df i ∧
    ((calculate_atr df period).getD i default).atr =
      (∑ j ∈ Finset.Ico (i + 1 - period) (i + 1), trSpec df j) /
        ((min period (i + 1) : ℕ) : ℚ) :=
  ⟨tr_getD_eq df period i hi, atr_getD_eq df period i hi⟩

/-- C2 witness: on a concrete 2-bar series with period 14, the second
bar's true range is 7 and its ATR is the mean (8 + 7) / 2. -/
theorem calculate_atr_true_range_rolling_mean_witness :
    ((calculate_atr [⟨0, 1, 10, 2, 5, 0⟩, ⟨1, 5, 12, 9, 11, 0⟩] 14).getD 1 default).tr = 7 ∧
    ((calculate_atr [⟨0, 1, 10, 2, 5, 0⟩, ⟨1, 5, 12, 9, 11, 0⟩] 14).getD 1 default).atr
      = 15/2 := by
  have h := calculate_atr_true_range_rolling_mean
    [⟨0, 1, 10, 2, 5, 0⟩, ⟨1, 5, 12, 9, 11, 0⟩] 14 (by decide) 1 (by decide)
  refine ⟨?_, ?_⟩
  · rw [h.1]
    norm_num [trSpec]
  · rw [h.2]
    rw [show (1 + 1 - 14 : ℕ) = 0 by decide]
    rw [Finset.sum_Ico_eq_sum_range]
    norm_num [Finset.sum_range_succ, trSpec]

/-- C8: the output of `calculate_atr` is aligned 1:1 with the input bars,
and an empty input yields an empty output. -/
theorem calculate_atr_alignment (df : List Candle) (period : ℕ) :
    (calculate_atr df period).length = df.length ∧ calculate_atr [] period = [] := by
  constructor
  · simp [calculate_atr]
  · rfl

/-- C9: `calculate_atr` never overwrites the source fields: every output
row carries the timestamp, open, high, low, close and volume of the input
bar at the same index unchanged. It works on a copy; in this pure
embedding the input list itself is immutable. -/
theorem calculate_atr_preserves_source (df : List Candle) (period i : ℕ)
    (hi : i < df.length) :
    ((calculate_atr df period).getD i default).timestamp = (df.getD i default).timestamp ∧
    ((calculate_atr df period).getD i default).open_ = (df.getD i default).open_ ∧
    ((calculate_atr df period).getD i default).high = (df.getD i default).high ∧
    ((calculate_atr df period).getD i default).low = (df.getD i default).low ∧
    ((calculate_atr df period).getD i default).close = (df.getD i default).close ∧
    ((calculate_atr df period).getD i default).volume = (df.getD i default).volume := by
  rw [calculate_atr_getD df period i hi]
  exact ⟨rfl, rfl, rfl, rfl, rfl, rfl⟩

/-- C9 witness: on a concrete 2-bar series the first output row keeps the
source fields of the first bar. -/
theorem calculate_atr_preserves_source_witness :
    ((calculate_atr [⟨3, 1, 10, 2, 5, 6⟩, ⟨4, 5, 12, 9, 11, 7⟩] 14).getD 0 default).timestamp
        = 3 ∧
    ((calculate_atr [⟨3, 1, 10, 2, 5, 6⟩, ⟨4, 5, 12, 9, 11, 7⟩] 14).getD 0 default).open_
        = 1 ∧
    ((calculate_atr [⟨3, 1, 10, 2, 5, 6⟩, ⟨4, 5, 12, 9, 11, 7⟩] 14).getD 0 default).high
        = 10 ∧
    ((calculate_atr [⟨3, 1, 10, 2, 5, 6⟩, ⟨4, 5, 12, 9, 11, 7⟩] 14).getD 0 default).low
        = 2 ∧
    ((calculate_atr [⟨3, 1, 10, 2, 5, 6⟩, ⟨4, 5, 12, 9, 11, 7⟩] 14).getD 0 default).close
        = 5 ∧
    ((calculate_atr [⟨3, 1, 10, 2, 5, 6⟩, ⟨4, 5, 12, 9, 11, 7⟩] 14).getD 0 default).volume
        = 6 :=
  calculate_atr_preserves_source [⟨3, 1, 10, 2, 5, 6⟩, ⟨4, 5, 12, 9, 11, 7⟩] 14 0 (by decide)

/-- C10: when every bar has `high ≥ low`, every true-range and ATR value
produced by `calculate_atr` is non-negative. -/
theorem calculate_atr_nonneg (df : List Candle) (period : ℕ)
    (hlh : ∀ b ∈ df, b.low ≤ b.high) (i : ℕ) (hi : i < df.length) :
    0 ≤ ((calculate_atr df period).getD i default).tr ∧
    0 ≤ ((calculate_atr df period).getD i default).atr := by
  constructor
  · rw [tr_getD_eq df period i hi]
    exact trSpec_nonneg df hlh i hi
  · rw [atr_getD_eq df period i hi]
    apply div_nonneg
    · apply Finset.sum_nonneg
      intro j hj
      refine trSpec_nonneg df hlh j ?_
      have := Finset.mem_Ico.1 hj
      omega
    · exact Nat.cast_nonneg _

/-- C10 witness: both derived values at index 1 of a concrete well-formed
series are non-negative. -/
theorem calculate_atr_nonneg_witness :
    0 ≤ ((calculate_atr [⟨0, 1, 10, 2, 5, 0⟩, ⟨1, 5, 12, 9, 11, 0⟩] 14).getD 1 default).tr ∧
    0 ≤ ((calculate_atr [⟨0, 1, 10, 2, 5, 0⟩, ⟨1, 5, 12, 9, 11, 0⟩] 14).getD 1 default).atr :=
  calculate_atr_nonneg [⟨0, 1, 10, 2, 5, 0⟩, ⟨1, 5, 12, 9, 11, 0⟩] 14
    (by intro b hb
        rcases List.mem_cons.1 hb with h | h
        · rw [h]
          norm_num
        · rcases List.mem_cons.1 h with h' | h'
          · rw [h']
            norm_num
          · simp at h') 1 (by decide)

/-- C3: with positive granularities tried in order, `find_round_levels`
returns, for the first granularity admitting a multiple within 10% of the
granularity, that nearest multiple (a multiple, within tolerance, and at
minimal distance among all multiples); it returns `none` exactly when no
granularity admits such a multiple; and in particular price 1005 with
granularities 1000, 500, 100 yields 1000 while price 260 yields none. -/
theorem find_round_levels_first_fit (p v : ℚ) (gs : List ℚ) (hpos : ∀ g ∈ gs, 0 < g) :
    (find_round_levels (some p) gs = some v →
      ∃ pre g post, gs = pre ++ g :: post ∧
        (∀ g' ∈ pre, ¬ hasNearMultiple p g') ∧
        (∃ k : ℤ, v = g * (k : ℚ)) ∧ |p - v| < g * (1/10) ∧
        (∀ k : ℤ, |p - v| ≤ |p - g * (k : ℚ)|)) ∧
    (find_round_levels (some p) gs = none → ∀ g ∈ gs, ¬ hasNearMultiple p g) ∧
    find_round_levels (some 1005) [1000, 500, 100] = some 1000 ∧
    find_round_levels (some 260) [1000, 500, 100] = none := by
  refine ⟨?_, ?_, ?_, ?_⟩
  · intro h
    exact find_round_levels_go_some p v gs hpos h
  · intro h
    exact find_round_levels_go_none p gs hpos h
  · norm_num [find_round_levels, find_round_levels_go, pyRound]
  · norm_num [find_round_levels, find_round_levels_go, pyRound]

/-- C3 witness: the two concrete evaluations extracted by applying the
theorem at price 1005. -/
theorem find_round_levels_first_fit_witness :
    find_round_levels (some 1005) [1000, 500, 100] = some 1000 ∧
    find_round_levels (some 260) [1000, 500, 100] = none := by
  have h := find_round_levels_first_fit 1005 1000 [1000, 500, 100]
    (by intro g hg
        rcases List.mem_cons.1 hg with h | h
        · rw [h]; norm_num
        · rcases List.mem_cons.1 h with h' | h'
          · rw [h']; norm_num
          · rcases List.mem_cons.1 h' with h'' | h''
            · rw [h'']; norm_num
            · simp at h'')
  exact ⟨h.2.2.1, h.2.2.2⟩

/-- C5: `find_key_levels` is exactly the scan over the interior indices
`1 ≤ i ≤ length - 2` that emits, in input order, a resistance level when
`high[i]` equals the trailing-20 rolling max of highs and a support level
when `low[i]` equals the trailing-20 rolling min of lows; consequently a
series of length at most 2 yields no levels. -/
theorem find_key_levels_interior_rolling_extrema (df : List Candle) :
    find_key_levels df =
      (List.range' 1 (df.length - 1 - 1)).flatMap (fun i =>
        (if (df.getD i default).high =
              listMax (((df.map (fun b => b.high)).take (i + 1)).drop (i + 1 - 20))
         then [("resistance", (df.getD i default).high, (df.getD i default).timestamp)]
         else []) ++
        (if (df.getD i default).low =
              listMin (((df.map (fun b => b.low)).take (i + 1)).drop (i + 1 - 20))
         then [("support", (df.getD i default).low, (df.getD i default).timestamp)]
         else [])) ∧
    (df.length ≤ 2 → find_key_levels df = []) := by
  have hmain : find_key_levels df =
      (List.range' 1 (df.length - 1 - 1)).flatMap (fun i =>
        (if (df.getD i default).high =
              listMax (((df.map (fun b => b.high)).take (i + 1)).drop (i + 1 - 20))
         then [("resistance", (df.getD i default).high, (df.getD i default).timestamp)]
         else []) ++
        (if (df.getD i default).low =
              listMin (((df.map (fun b => b.low)).take (i + 1)).drop (i + 1 - 20))
         then [("support", (df.getD i default).low, (df.getD i default).timestamp)]
         else [])) := by
    simp only [find_key_levels]
    refine List.flatMap_congr (fun i hi => ?_)
    have hrange := List.mem_range'_1.1 hi
    have hilen : i < df.length := by omega
    rw [rollingMax_getD (highCol df) 20 i (by rw [length_highCol]; exact hilen),
      rollingMin_getD (lowCol df) 20 i (by rw [length_lowCol]; exact hilen)]
    rfl
  refine ⟨hmain, fun h => ?_⟩
  rw [hmain]
  have h0 : df.length - 1 - 1 = 0 := by omega
  rw [h0]
  rfl

/-- C5 witness: a 2-bar series yields no levels, by the theorem's second
component. -/
theorem find_key_levels_interior_rolling_extrema_witness :
    find_key_levels [⟨0, 0, 5, 1, 3, 0⟩, ⟨1, 0, 6, 2, 3, 0⟩] = [] :=
  (find_key_levels_interior_rolling_extrema
    [⟨0, 0, 5, 1, 3, 0⟩, ⟨1, 0, 6, 2, 3, 0⟩]).2 (by decide)

lemma mem_ite_singleton {α : Type} {c : Prop} [Decidable c] {a x : α}
    (h : a ∈ (if c then [x] else [])) : a = x := by
  split at h
  · simpa using h
  · simp at h

/-- C4: on a 2-bar series whose previous bar's high is 110 and whose last
bar's close is 100, a single resistance key level at 105 produces exactly
one signal: a false breakout at price 105 carrying the last bar's
timestamp. -/
theorem check_patterns_single_false_breakout (b0 b1 : PBar) (t : ℕ)
    (hh : b0.high = 110) (hc : b1.close = 100) :
    check_patterns [b0, b1] [("resistance", 105, t)] =
      [("false_breakout", 105, b1.timestamp)] := by
  have hrs : ("resistance" : String) ≠ "support" := by decide
  rcases hb : b1.atr with _ | v
  · norm_num [check_patterns, atrVal, hh, hc, hb, hrs]
  · rcases v with _ | a
    · norm_num [check_patterns, atrVal, hh, hc, hb, hrs]
    · norm_num [check_patterns, atrVal, hh, hc, hb, hrs]

/-- C4 witness: the concrete 2-bar instance. -/
theorem check_patterns_single_false_breakout_witness :
    check_patterns [⟨0, 110, 90, 95, none⟩, ⟨1, 102, 98, 100, none⟩]
      [("resistance", 105, 7)] = [("false_breakout", 105, 1)] :=
  check_patterns_single_false_breakout ⟨0, 110, 90, 95, none⟩ ⟨1, 102, 98, 100, none⟩ 7
    rfl rfl

/-- C6: `get_reserve_move` reports "no data" whenever either series is
empty or the ATR is undefined; otherwise, with `price_move` the absolute
gap between the last hourly and last daily closes, it reports "move
exhausted" exactly when `price_move` strictly exceeds `0.75 * atr` and
"normal" otherwise — so exact equality with `0.75 * atr` is "normal". -/
theorem get_reserve_move_statuses (df_1h df_1d : List Candle) (atr : Option ℚ) :
    ((df_1h = [] ∨ df_1d = [] ∨ atr = none) →
      get_reserve_move df_1h df_1d atr = "Нет данных для оценки запаса хода") ∧
    (∀ a : ℚ, atr = some a → df_1h ≠ [] → df_1d ≠ [] →
      ((get_reserve_move df_1h df_1d atr =
          "Запас хода исчерпан (>75% ATR), предпочтение контртрендовым сделкам" ↔
        a * (3/4) <
          |(closeCol df_1h).getD (df_1h.length - 1) 0 -
            (closeCol df_1d).getD (df_1d.length - 1) 0|) ∧
       (get_reserve_move df_1h df_1d atr = "Запас хода нормальный" ↔
        ¬ a * (3/4) <
          |(closeCol df_1h).getD (df_1h.length - 1) 0 -
            (closeCol df_1d).getD (df_1d.length - 1) 0|))) := by
  constructor
  · intro h
    rcases h with h | h | h <;> simp [get_reserve_move, h]
  · intro a ha h1 h2
    have h1' : df_1h.isEmpty = false := by
      rcases df_1h with _ | _
      · exact absurd rfl h1
      · rfl
    have h2' : df_1d.isEmpty = false := by
      rcases df_1d with _ | _
      · exact absurd rfl h2
      · rfl
    subst ha
    simp only [get_reserve_move, h1', h2', Option.isNone_some, Option.getD_some,
      Bool.or_false, Bool.false_or, Bool.or_self, Bool.false_eq_true, if_false]
    by_cases hm : a * (3/4) <
        |(closeCol df_1h).getD (df_1h.length - 1) 0 -
          (closeCol df_1d).getD (df_1d.length - 1) 0|
    · rw [if_pos hm]
      exact ⟨iff_of_true rfl hm, iff_of_false (by decide) (not_not_intro hm)⟩
    · rw [if_neg hm]
      exact ⟨iff_of_false (by decide) hm, iff_of_true rfl hm⟩

/-- C6 witness: empty series give the "no data" status. -/
theorem get_reserve_move_statuses_witness :
    get_reserve_move [] [] none = "Нет данных для оценки запаса хода" :=
  (get_reserve_move_statuses [] [] none).1 (Or.inl rfl)

/-- C7: when the ATR entry of the last bar is missing or NaN, only the
bounce check is suppressed: `check_patterns` still emits the false
breakout and breakout signals under their own conditions, and no bounce
signal appears in the output. -/
theorem check_patterns_atr_nan_only_suppresses_bounce (df : List PBar)
    (levels : List (String × ℚ × ℕ)) (h2 : 2 ≤ df.length)
    (hatr : (df.getD (df.length - 1) default).atr = none ∨
            (df.getD (df.length - 1) default).atr = some none) :
    check_patterns df levels =
      levels.flatMap (fun lv =>
        (if (lv.2.1 < (df.getD (df.length - 2) default).high ∧
               (df.getD (df.length - 1) default).close < lv.2.1 ∧ lv.1 = "resistance") ∨
            ((df.getD (df.length - 2) default).low < lv.2.1 ∧
               lv.2.1 < (df.getD (df.length - 1) default).close ∧ lv.1 = "support")
         then [("false_breakout", lv.2.1, (df.getD (df.length - 1) default).timestamp)]
         else []) ++
        (if lv.2.1 < (df.getD (df.length - 1) default).close ∧
            (df.getD (df.length - 2) default).close < lv.2.1 ∧ lv.1 = "resistance"
         then [("breakout", lv.2.1, (df.getD (df.length - 1) default).timestamp)]
         else [])) ∧
    (∀ s ∈ check_patterns df levels, s.1 ≠ "bounce") := by
  have hmain : check_patterns df levels =
      levels.flatMap (fun lv =>
        (if (lv.2.1 < (df.getD (df.length - 2) default).high ∧
               (df.getD (df.length - 1) default).close < lv.2.1 ∧ lv.1 = "resistance") ∨
            ((df.getD (df.length - 2) default).low < lv.2.1 ∧
               lv.2.1 < (df.getD (df.length - 1) default).close ∧ lv.1 = "support")
         then [("false_breakout", lv.2.1, (df.getD (df.length - 1) default).timestamp)]
         else []) ++
        (if lv.2.1 < (df.getD (df.length - 1) default).close ∧
            (df.getD (df.length - 2) default).close < lv.2.1 ∧ lv.1 = "resistance"
         then [("breakout", lv.2.1, (df.getD (df.length - 1) default).timestamp)]
         else [])) := by
    simp only [check_patterns]
    rw [if_neg (by omega)]
    refine List.flatMap_congr (fun lv _ => ?_)
    rcases hatr with h | h
    · simp only [atrVal, h]
      have hz : ¬ (lv.1 = "support" ∧
          |(df.getD (df.length - 1) default).low - lv.2.1| < 0 * (1/10) ∧
          lv.2.1 < (df.getD (df.length - 1) default).close) := by
        rintro ⟨-, habs, -⟩
        rw [zero_mul] at habs
        exact absurd habs (not_lt.2 (abs_nonneg _))
      rw [if_neg hz, List.append_nil]
    · simp only [atrVal, h]
      rw [List.append_nil]
  refine ⟨hmain, ?_⟩
  intro s hs
  rw [hmain] at hs
  rcases List.mem_flatMap.1 hs with ⟨lv, _, hsin⟩
  rcases List.mem_append.1 hsin with h | h
  · rw [mem_ite_singleton h]
    exact (by decide : ("false_breakout" : String) ≠ "bounce")
  · rw [mem_ite_singleton h]
    exact (by decide : ("breakout" : String) ≠ "bounce")

/-- C7 witness: with a NaN ATR entry on the last bar, a breakout signal
still fires and no bounce is emitted; the concrete output contains the
breakout alone. -/
theorem check_patterns_atr_nan_only_suppresses_bounce_witness :
    check_patterns [⟨0, 10, 1, 2, none⟩, ⟨1, 10, 1, 8, some none⟩]
      [("resistance", 5, 0)] = [("breakout", 5, 1)] := by
  rw [(check_patterns_atr_nan_only_suppresses_bounce
    [⟨0, 10, 1, 2, none⟩, ⟨1, 10, 1, 8, some none⟩]
    [("resistance", 5, 0)] (by decide) (Or.inr rfl)).1]
  norm_num [(by decide : ("resistance" : String) ≠ "support")]

end BtcBot
